import Mathlib

/-!
Verification of the omnitrace sensor framework

Shallow embedding of the omnitrace repository (Rust): the `netpacket`
address decoders and connection matcher, the `filescream` scan/diff
engine, the `procdog` process watcher, the `xmount` mount watcher and
the core callback hub.  Each definition mirrors one Rust function of
the source tree; machine integers are modelled as `Nat` with explicit
bounds where overflow matters, fallible code returns `Option`/`Except`.
The repository's unit tests assert a little-endian compilation target
(`sanity_target_endianness`), so byte-order conversions are embedded
with their little-endian-target semantics.  `HashMap`s are modelled by
association lists with unique keys (iteration order is the list order,
standing for the arbitrary hash order), `HashSet`s by lists.
-/

namespace Netutil

/-- Value of one hexadecimal digit, as accepted by Rust's
`from_str_radix(_, 16)`: `0-9`, `a-f`, `A-F`. -/
def hexDigitVal (c : Char) : Option Nat :=
  if '0' ≤ c ∧ c ≤ '9' then some (c.toNat - '0'.toNat)
  else if 'a' ≤ c ∧ c ≤ 'f' then some (c.toNat - 'a'.toNat + 10)
  else if 'A' ≤ c ∧ c ≤ 'F' then some (c.toNat - 'A'.toNat + 10)
  else none

/-- Models `uN::from_str_radix(s, 16)` for an unsigned type whose maximal
value is `maxVal`: optional leading `+`, at least one digit, every char a
hex digit, error on overflow. -/
def from_str_radix16 (s : String) (maxVal : Nat) : Option Nat :=
  let cs := match s.data with
    | '+' :: rest => rest
    | cs => cs
  if cs.isEmpty then none
  else
    cs.foldl
      (fun acc c => do
        let a ← acc
        let d ← hexDigitVal c
        let v := a * 16 + d
        if v ≤ maxVal then some v else none)
      (some 0)

/-- Embeds `hex_port` from `netpacket/src/netutil.rs`: `u16::from_str_radix(s, 16).ok()`. -/
def hex_port (s : String) : Option Nat :=
  from_str_radix16 s 65535

/-- Models `u32::from_le` on the little-endian target the repository's
`sanity_target_endianness` test pins down: the identity conversion. -/
def u32_from_le (v : Nat) : Nat := v

/-- Byte `i` (0 = most significant) of a `u32` value. -/
def u32Byte (v i : Nat) : Nat := v / 256 ^ (3 - i) % 256

/-- Models the `Display` of `std::net::Ipv4Addr` built via
`Ipv4Addr::from(v : u32)`: the four bytes of `v` in big-endian order,
rendered as a dotted quad. -/
def ipv4_to_string (v : Nat) : String :=
  toString (u32Byte v 0) ++ "." ++ toString (u32Byte v 1) ++ "." ++
    toString (u32Byte v 2) ++ "." ++ toString (u32Byte v 3)

/-- Embeds `dec_ipv4` from `netpacket/src/netutil.rs`:
`u32::from_str_radix(hex_le, 16)` then `Ipv4Addr::from(u32::from_le(v))`.
The address is represented by its `Display` string. -/
def dec_ipv4 (hex_le : String) : Option String :=
  (from_str_radix16 hex_le 4294967295).map (fun v => ipv4_to_string (u32_from_le v))

/-- One hexadecimal group of an IPv6 address (`{:x}` formatting: lowercase,
no leading zeros). -/
def hexGroup (n : Nat) : String :=
  String.mk (Nat.toDigits 16 n)

/-- Longest run of consecutive zeros in a list, returned as
(start index, length); leftmost on ties (strict improvement only), as in
the Rust `Ipv6Addr` `Display` implementation. -/
def longestZeroRun (l : List Nat) : Nat × Nat :=
  let f := fun (st : (Nat × Nat) × (Nat × Nat) × Nat) (seg : Nat) =>
    let best := st.1
    let cur := st.2.1
    let i := st.2.2
    if seg = 0 then
      let cur := (cur.1, cur.2 + 1)
      if cur.2 > best.2 then ((cur.1, cur.2), cur, i + 1) else (best, cur, i + 1)
    else (best, (i + 1, 0), i + 1)
  (l.foldl f ((0, 0), (0, 0), 0)).1

/-- Models the `Display` of `std::net::Ipv6Addr` on eight 16-bit segments:
`::` and `::1` shortcuts, the IPv4-mapped form, otherwise compression of
the longest zero run when its length exceeds one. -/
def ipv6_to_string (segs : List Nat) : String :=
  if segs = [0, 0, 0, 0, 0, 0, 0, 0] then "::"
  else if segs = [0, 0, 0, 0, 0, 0, 0, 1] then "::1"
  else if segs.take 5 = [0, 0, 0, 0, 0] ∧ segs.get? 5 = some 65535 then
    let g6 := (segs.get? 6).getD 0
    let g7 := (segs.get? 7).getD 0
    "::ffff:" ++ toString (g6 / 256) ++ "." ++ toString (g6 % 256) ++ "." ++
      toString (g7 / 256) ++ "." ++ toString (g7 % 256)
  else
    let (start, len) := longestZeroRun segs
    if len > 1 then
      String.intercalate ":" ((segs.take start).map hexGroup) ++ "::" ++
        String.intercalate ":" ((segs.drop (start + len)).map hexGroup)
    else
      String.intercalate ":" (segs.map hexGroup)

/-- Embeds `dec_ipv6` from `netpacket/src/netutil.rs`: exactly 32 hex chars,
16 bytes in network (big-endian) order; represented by the address's
`Display` string. -/
def dec_ipv6 (hex_be : String) : Option String := do
  if hex_be.length ≠ 32 then none
  else
    let cs := hex_be.data
    let seg := fun (i : Nat) => do
      let a ← hexDigitVal (cs.getD (4 * i) ' ')
      let b ← hexDigitVal (cs.getD (4 * i + 1) ' ')
      let c ← hexDigitVal (cs.getD (4 * i + 2) ' ')
      let d ← hexDigitVal (cs.getD (4 * i + 3) ' ')
      pure (a * 4096 + b * 256 + c * 16 + d)
    let segs ← [0, 1, 2, 3, 4, 5, 6, 7].mapM seg
    pure (ipv6_to_string segs)

/-- Models `str::split_once(c)`: split at the first occurrence of `c`. -/
def split_once (s : String) (c : Char) : Option (String × String) :=
  match s.data.findIdx? (· = c) with
  | none => none
  | some i => some (String.mk (s.data.take i), String.mk (s.data.drop (i + 1)))

/-- Embeds `decode_addr` from `netpacket/src/netutil.rs`: split `"hexip:hexport"`
at the first colon, decode the port as `u16` hex and the IP per `v6`,
and format `"{ip}:{port}"`. -/
def decode_addr (raw : String) (v6 : Bool) : Option String := do
  let (ip_hex, port_hex) ← split_once raw ':'
  let port ← hex_port port_hex
  if v6 then
    let ip ← dec_ipv6 ip_hex
    pure (ip ++ ":" ++ toString port)
  else
    let ip ← dec_ipv4 ip_hex
    pure (ip ++ ":" ++ toString port)

/-- Embeds `decode_tcp_state` from `netpacket/src/netutil.rs`. -/
def decode_tcp_state (s : Option String) : Option String :=
  s.map (fun code =>
    if code = "01" then "ESTABLISHED"
    else if code = "02" then "SYN_SENT"
    else if code = "03" then "SYN_RECV"
    else if code = "04" then "FIN_WAIT1"
    else if code = "05" then "FIN_WAIT2"
    else if code = "06" then "TIME_WAIT"
    else if code = "07" then "CLOSE"
    else if code = "08" then "CLOSE_WAIT"
    else if code = "09" then "LAST_ACK"
    else if code = "0A" then "LISTEN"
    else if code = "0B" then "CLOSING"
    else "UNKNOWN")

/-- Models `glob::Pattern::matches` (default `MatchOptions`) restricted to
`*`, `?` and literal characters; the patterns appearing in the claims use
no character classes.  `*` matches any (possibly empty) character sequence
(path separators are not required literal by default). -/
def globMatch : List Char → List Char → Bool
  | [], s => s.isEmpty
  | '*' :: ps, s => (List.range (s.length + 1)).any (fun k => globMatch ps (s.drop k))
  | c :: ps, s =>
    match s with
    | [] => false
    | d :: s2 => (c = '?' || c = d) && globMatch ps s2

/-- String form of `globMatch`: does the glob pattern match the target. -/
def patMatches (pat target : String) : Bool :=
  globMatch pat.data target.data

/-- Embeds `is_ipish` from `netpacket/src/netutil.rs`: non-empty and only
digits, `.`, `:`, `*`. -/
def is_ipish (p : String) : Bool :=
  !p.isEmpty && p.data.all (fun c => c.isDigit || c = '.' || c = ':' || c = '*')

/-- Embeds `is_hostish` from `netpacket/src/netutil.rs`: any ASCII letter, or
both `*` and `.` present. -/
def is_hostish (p : String) : Bool :=
  p.data.any (fun c => c.isAlpha) || (p.data.contains '*' && p.data.contains '.')

/-- Models `str::strip_suffix('6').unwrap_or(..)`. -/
def strip_suffix6 (s : String) : String :=
  if s.endsWith "6" then s.dropRight 1 else s

/-- Models `str::rsplit_once(c)`: split at the last occurrence of `c`. -/
def rsplit_once (s : String) (c : Char) : Option (String × String) :=
  match (s.data.reverse.findIdx? (· = c)) with
  | none => none
  | some j =>
    let i := s.data.length - 1 - j
    some (String.mk (s.data.take i), String.mk (s.data.drop (i + 1)))

end Netutil

open Netutil

/-! ## Association-list model of `HashMap`

`HashMap` iteration order is arbitrary; it is modelled by the order of an
association list whose keys are unique (`Nodup` on the key column), and
`HashMap::get`/`insert` by `lookupAL`/`insertAL`. -/

/-- Models `HashMap::get`. -/
def lookupAL {κ α : Type} [DecidableEq κ] : List (κ × α) → κ → Option α
  | [], _ => none
  | (k2, v) :: rest, k => if k2 = k then some v else lookupAL rest k

/-- Models `HashMap::insert`: overwrite in place, or append a new entry. -/
def insertAL {κ α : Type} [DecidableEq κ] (m : List (κ × α)) (k : κ) (v : α) :
    List (κ × α) :=
  if (lookupAL m k).isSome then
    m.map (fun kv => if kv.1 = k then (k, v) else kv)
  else m ++ [(k, v)]

/-! ## Bounded result channel (`tokio::sync::mpsc`) -/

/-- A bounded mpsc channel as seen by a sender: capacity, number of queued
messages, and whether the receiver is gone. -/
structure BoundedChan where
  cap : Nat
  len : Nat
  closed : Bool
deriving DecidableEq, Repr

/-- The error of `Sender::try_send`. -/
inductive TrySendErr where
  | Full
  | Closed
deriving DecidableEq, Repr

/-- Models `Sender::try_send`: error (message dropped) when the channel is
closed or full, otherwise enqueue; never waits. -/
def try_send (ch : BoundedChan) : BoundedChan × Option TrySendErr :=
  if ch.closed then (ch, some TrySendErr.Closed)
  else if ch.cap ≤ ch.len then (ch, some TrySendErr.Full)
  else ({ ch with len := ch.len + 1 }, none)

/-- Models `Sender::send(..).await` as observed by the dispatching task
(no consumer runs while it waits): error (message dropped) when closed,
enqueue when there is room, and `none` — the await never completes, the
dispatch blocks — when the channel is open and full. -/
def send_await (ch : BoundedChan) : Option BoundedChan :=
  if ch.closed then some ch
  else if ch.len < ch.cap then some { ch with len := ch.len + 1 }
  else none

namespace CallbackHub

/-- Embeds `CallbackHub::fire` from `src/callbacks.rs`: callbacks are
`(mask, result of call)` pairs, visited in registration order; a callback
is invoked when `mask & ev_mask != 0`; a returned payload is sent with the
awaited `tx.send(r).await` (`send_await`), whose failure result is
discarded.  Returns the final channel and the number of callbacks
invoked, or `none` when a send blocks and `fire` never returns. -/
def fire (ev_mask : Nat) : List (Nat × Option Nat) → Option BoundedChan → Nat →
    Option (Option BoundedChan × Nat)
  | [], ch, invoked => some (ch, invoked)
  | (m, r) :: rest, ch, invoked =>
    if m &&& ev_mask = 0 then fire ev_mask rest ch invoked
    else
      match r with
      | none => fire ev_mask rest ch (invoked + 1)
      | some _ =>
        match ch with
        | none => fire ev_mask rest ch (invoked + 1)
        | some c =>
          match send_await c with
          | none => none
          | some c2 => fire ev_mask rest (some c2) (invoked + 1)

end CallbackHub

/-! ## ConnKey / NetNotify (`netpacket/src/events.rs`, `netpacket/src/lib.rs`) -/

/-- Embeds `ConnKey` from `netpacket/src/events.rs`; equality is the derived
structural equality over all fields. -/
structure ConnKey where
  proto : String
  «local» : String
  remote : String
  state : Option String
  local_dec : Option String
  remote_dec : Option String
  state_dec : Option String
  local_host : Option String
  remote_host : Option String
deriving DecidableEq, Repr

/-- Embeds `NetNotifyEvent` from `netpacket/src/events.rs`. -/
inductive NetNotifyEvent where
  | Opened (conn : ConnKey)
  | Closed (conn : ConnKey)
deriving DecidableEq, Repr

/-- Discriminator for the `Closed` variant. -/
def NetNotifyEvent.isClosed : NetNotifyEvent → Bool
  | .Opened _ => false
  | .Closed _ => true

/-- The pattern/DNS state of `NetNotify` from `netpacket/src/lib.rs`
(patterns are kept as their source strings; `glob::Pattern::new` succeeds
on every pattern in the modelled class). -/
structure NetNotify where
  dns : Bool
  watch : List String
  ignore : List String
  watch_ip : List String
  watch_host : List String
  ignore_ip : List String
  ignore_host : List String
deriving DecidableEq, Repr

namespace NetNotify

/-- A fresh `NetNotify` (default config: `dns = false`, no patterns). -/
def empty : NetNotify :=
  { dns := false, watch := [], ignore := [], watch_ip := [], watch_host := [],
    ignore_ip := [], ignore_host := [] }

/-- Embeds `NetNotify::add` from `netpacket/src/lib.rs`: host-like patterns go to
`watch_host` (auto-enabling DNS), ip-like to `watch_ip`, the rest to the
generic `watch` vector. -/
def add (nn : NetNotify) (pat : String) : NetNotify :=
  if is_hostish pat then { nn with dns := true, watch_host := nn.watch_host ++ [pat] }
  else if is_ipish pat then { nn with watch_ip := nn.watch_ip ++ [pat] }
  else { nn with watch := nn.watch ++ [pat] }

/-- Embeds `NetNotify::ignore` from `netpacket/src/lib.rs` (named `addIgnore`
here because `ignore` is the field). -/
def addIgnore (nn : NetNotify) (pat : String) : NetNotify :=
  if is_hostish pat then { nn with dns := true, ignore_host := nn.ignore_host ++ [pat] }
  else if is_ipish pat then { nn with ignore_ip := nn.ignore_ip ++ [pat] }
  else { nn with ignore := nn.ignore ++ [pat] }

/-- Embeds `NetNotify::matches` from `netpacket/src/lib.rs`, with its early
returns folded into nested conditionals in source order. -/
def «matches» (nn : NetNotify) (c : ConnKey) : Bool :=
  let lcl := c.local_dec.getD c.«local»
  let rmt := c.remote_dec.getD c.remote
  let proto := strip_suffix6 c.proto
  let simple := proto ++ " " ++ lcl ++ " " ++ rmt
  let remote_dec := c.remote_dec.getD "-"
  let remote_ip :=
    match rsplit_once remote_dec ':' with
    | some (ip, _) => ip
    | none => remote_dec
  let remote_host := c.remote_host.getD ""
  if nn.ignore.any (fun p => patMatches p simple) then false
  else if !remote_host.isEmpty && nn.ignore_host.any (fun p => patMatches p remote_host) then false
  else if nn.ignore_ip.any (fun p => patMatches p remote_ip) then false
  else if !nn.watch.isEmpty && !nn.watch.any (fun p => patMatches p simple) then false
  else if !nn.watch_host.isEmpty &&
      (remote_host.isEmpty || !nn.watch_host.any (fun p => patMatches p remote_host)) then false
  else if !nn.watch_ip.isEmpty && !nn.watch_ip.any (fun p => patMatches p remote_ip) then false
  else if !nn.watch.isEmpty || !nn.ignore.isEmpty then
    let target := proto ++ " raw:" ++ c.«local» ++ "->" ++ c.remote ++
      " dec:" ++ c.local_dec.getD "-" ++ "->" ++ c.remote_dec.getD "-" ++
      " state:" ++ c.state.getD "-" ++ ":" ++ c.state_dec.getD "-"
    if !nn.watch.isEmpty && !nn.watch.any (fun p => patMatches p target) then false
    else if nn.ignore.any (fun p => patMatches p target) then false
    else true
  else true

/-- One tick of `NetNotify::run` after priming: `opened = now \ last`,
`closed = last \ now`; each key is enriched (`enrich_dns`, modelled by
`enrich`; the identity when `cfg.dns` is off), filtered through
`matches`, and fired `Opened` then `Closed`. -/
def tickEvents (nn : NetNotify) (enrich : ConnKey → ConnKey)
    («last» now : List ConnKey) : List NetNotifyEvent :=
  let opened := now.filter (fun k => !«last».contains k)
  let closed := «last».filter (fun k => !now.contains k)
  (opened.filterMap (fun k =>
      let k := enrich k
      if nn.matches k then some (NetNotifyEvent.Opened k) else none)) ++
  (closed.filterMap (fun k =>
      let k := enrich k
      if nn.matches k then some (NetNotifyEvent.Closed k) else none))

end NetNotify

/-- The state over which the `NetNotify::run` loop iterates. -/
structure NetRunState where
  «last» : List ConnKey
  is_primed : Bool

/-- The outcome of one pass through a sensor loop body: continue with a
new state after firing events, or exit the loop. -/
inductive LoopOutcome (σ ε : Type) where
  | cont (st : σ) (events : List ε)
  | exit

/-- One pass of the `NetNotify::run` loop: observe cancellation first
(`tokio::select!` against the tick), then read the table (an error skips
the tick), prime silently on the first snapshot, else diff and fire. -/
def NetNotify.loop_body (nn : NetNotify) (enrich : ConnKey → ConnKey) (cancelled : Bool)
    (st : NetRunState) (readResult : Option (List ConnKey)) :
    LoopOutcome NetRunState NetNotifyEvent :=
  if cancelled then LoopOutcome.exit
  else
    match readResult with
    | none => LoopOutcome.cont st []
    | some now =>
      if !st.is_primed then LoopOutcome.cont ⟨now, true⟩ []
      else LoopOutcome.cont ⟨now, true⟩ (nn.tickEvents enrich st.«last» now)

/-- A TCP connection whose decoded remote is `1.2.3.4:443`, with no
resolved hostname (as produced by `read_table`; `local_host`/`remote_host`
start as `None`). -/
def connTo1234 : ConnKey :=
  { proto := "tcp", «local» := "0100007A:1F90", remote := "04030201:01BB",
    state := some "01", local_dec := some "10.0.0.1:8080",
    remote_dec := some "1.2.3.4:443", state_dec := some "ESTABLISHED",
    local_host := none, remote_host := none }

/-- A TCP connection whose decoded remote is `8.8.8.8:443`. -/
def connTo8888 : ConnKey :=
  { connTo1234 with remote := "08080808:01BB", remote_dec := some "8.8.8.8:443" }

/-- The key `connTo1234` after its TCP state moved `01` → `06`: every other field
is identical. -/
def connTo1234TimeWait : ConnKey :=
  { connTo1234 with state := some "06", state_dec := some "TIME_WAIT" }

/-! ## FileScream (`filescream/src/lib.rs`) -/

/-- Filesystem paths, component-wise (`PathBuf`); `strip_prefix`-based
containment becomes list-prefix containment. -/
abbrev FsPath := List String

/-- Models the 32-byte blake3 fingerprint of
`len.to_le_bytes() ⊕ mtime_ns.to_le_bytes()`: the hash is injective on
the pair up to (ignored) collisions, so it is represented by the pair. -/
structure Fingerprint where
  len : Nat
  mtime_ns : Nat
deriving DecidableEq, Repr

/-- The fingerprint computed by `FileScream::scan` for a regular file. -/
def fingerprint (len mtime_ns : Nat) : Fingerprint := ⟨len, mtime_ns⟩

/-- Embeds `FileScreamEvent` from `filescream/src/events.rs`. -/
inductive FileScreamEvent where
  | Created (path : FsPath)
  | Changed (path : FsPath)
  | Removed (path : FsPath)
deriving DecidableEq, Repr

/-- The path carried by a `FileScreamEvent`. -/
def FileScreamEvent.evKey : FileScreamEvent → FsPath
  | .Created p => p
  | .Changed p => p
  | .Removed p => p

/-- Discriminator for the `Removed` variant. -/
def FileScreamEvent.isRemoved : FileScreamEvent → Bool
  | .Removed _ => true
  | _ => false

namespace FileScream

/-- The per-entry decision of the `run` loop over `new_files`: absent from
`fstate` fires `Created`, present with a differing hash fires `Changed`,
otherwise nothing. -/
def diffEv (fstate : List (FsPath × Fingerprint)) (pv : FsPath × Fingerprint) :
    Option FileScreamEvent :=
  match lookupAL fstate pv.1 with
  | none => some (.Created pv.1)
  | some old => if old ≠ pv.2 then some (.Changed pv.1) else none

/-- The per-entry decision of the `run` loop over `fstate.keys()`: a key
absent from `new_files` fires `Removed`. -/
def removedEv (new_files : List (FsPath × Fingerprint)) (pv : FsPath × Fingerprint) :
    Option FileScreamEvent :=
  if (lookupAL new_files pv.1).isNone then some (.Removed pv.1) else none

/-- The events fired by one primed tick of `FileScream::run`, in firing
order: the `new_files` pass (`Created`/`Changed` interleaved in snapshot
iteration order) followed by the `fstate` pass (`Removed`). -/
def tickDiffEvents (fstate new_files : List (FsPath × Fingerprint)) :
    List FileScreamEvent :=
  new_files.filterMap (diffEv fstate) ++ fstate.filterMap (removedEv new_files)

/-- The filesystem as seen by `scan` through `symlink_metadata` and
`read_dir`: regular files with length and mtime, directories with mtime
and named children, and other node kinds (symlinks, devices, sockets). -/
inductive FsNode where
  | file (len mtime_ns : Nat)
  | dir (mtime_ns : Nat) (children : List (String × FsNode))
  | other

/-- The two compiled glob sets of the `IgnoreMatcher`, as predicates on
the normalized path. -/
structure IgnorePreds where
  any : FsPath → Bool
  dir_only : FsPath → Bool

/-- The mutable state threaded through `scan`: the directory-stamp map
(read for the previous tick's stamps, updated in place with the new ones)
and the output file map. -/
structure ScanSt where
  dstate : List (FsPath × Nat)
  out : List (FsPath × Fingerprint)
deriving DecidableEq, Repr

/-- Embeds `FileScream::is_under`: `path.strip_prefix(dir).is_ok()`. -/
def is_under (path dir : FsPath) : Bool :=
  dir.isPrefixOf path

mutual

/-- Embeds `FileScream::scan` restricted to one stack entry: on a directory,
stamp it, short-circuit (copy the prior `fstate` entries under it) when
the stamp is unchanged and the directory is not the root, else descend;
on a regular file, fingerprint it; other kinds are ignored.  The
stack-driven DFS of the source visits each node of the tree once; the
visit order only permutes map entries and is irrelevant to lookups. -/
def scanNode (root : FsPath) (ign : IgnorePreds)
    (prev_files : List (FsPath × Fingerprint)) (path : FsPath) (node : FsNode)
    (st : ScanSt) : ScanSt :=
  match node with
  | .file len mtime_ns =>
    if ign.any path then st
    else { st with out := insertAL st.out path (fingerprint len mtime_ns) }
  | .other => st
  | .dir mtime_ns children =>
    if ign.dir_only path || ign.any path then st
    else
      let old := lookupAL st.dstate path
      let st1 : ScanSt := { st with dstate := insertAL st.dstate path mtime_ns }
      if old = some mtime_ns ∧ path ≠ root then
        let out2 := prev_files.foldl
          (fun o pv => if is_under pv.1 path then insertAL o pv.1 pv.2 else o) st1.out
        { st1 with out := out2 }
      else scanChildren root ign prev_files path children st1

/-- Scan the enumerated children of a directory in turn. -/
def scanChildren (root : FsPath) (ign : IgnorePreds)
    (prev_files : List (FsPath × Fingerprint)) (path : FsPath) :
    List (String × FsNode) → ScanSt → ScanSt
  | [], st => st
  | (name, child) :: rest, st =>
    scanChildren root ign prev_files path rest
      (scanNode root ign prev_files (path ++ [name]) child st)

end

/-- The state carried across iterations of the `FileScream::run` loop. -/
structure FsRunState where
  fstate : List (FsPath × Fingerprint)
  dstate : List (FsPath × Nat)

/-- One pass of the `FileScream::run` loop given the tick's scan result:
adopt the new dir state, fire the diff events, adopt the new file state —
and always continue; the body has no `break`, no `return` and no
cancellation observation. -/
def loop_body (st : FsRunState)
    (scanResult : List (FsPath × Fingerprint) × List (FsPath × Nat)) :
    LoopOutcome FsRunState FileScreamEvent :=
  LoopOutcome.cont { fstate := scanResult.1, dstate := scanResult.2 }
    (tickDiffEvents st.fstate scanResult.1)

/-- Embeds `FileScream::fire` from `filescream/src/lib.rs`: callbacks are
`(mask matches event, result of call)` pairs in registration order; a
returned payload is collected into the output vector and, when a result
channel is set, sent with `try_send` whose error is only logged. -/
def fire : List (Bool × Option Nat) → Option BoundedChan → List Nat →
    List Nat × Option BoundedChan
  | [], ch, out => (out, ch)
  | (matched, r) :: rest, ch, out =>
    if matched then
      match r with
      | some v => fire rest (ch.map (fun c => (try_send c).1)) (out ++ [v])
      | none => fire rest ch out
    else fire rest ch out

end FileScream

/-- A concrete prior state: `a` and `c` with their fingerprints. -/
def fstateW : List (FsPath × Fingerprint) :=
  [(["a"], fingerprint 1 1), (["c"], fingerprint 2 2)]

/-- A concrete snapshot: `a` changed, `b` new, `c` gone. -/
def newFilesW : List (FsPath × Fingerprint) :=
  [(["a"], fingerprint 1 5), (["b"], fingerprint 3 3)]

/-- An ignore matcher with no patterns. -/
def ignNone : FileScream.IgnorePreds :=
  { any := fun _ => false, dir_only := fun _ => false }

/-- A concrete prior file map with one entry under `r/d` and one outside. -/
def prevFilesW : List (FsPath × Fingerprint) :=
  [(["r", "d", "f"], fingerprint 7 7), (["r", "x"], fingerprint 1 1)]

/-- A concrete scan state whose dstate already stamps `r/d` at 5. -/
def scanStW : FileScream.ScanSt :=
  { dstate := [(["r", "d"], 5)], out := [] }

/-! ## ProcDog (`procdog/src/lib.rs`) -/

/-- Embeds `ProcDogEvent` from `procdog/src/events.rs`. -/
inductive ProcDogEvent where
  | Appeared (name : String) (pid : Int)
  | Disappeared (name : String) (pid : Int)
  | Missing (name : String)
deriving DecidableEq, Repr

/-- The process name carried by a `ProcDogEvent`. -/
def ProcDogEvent.pname : ProcDogEvent → String
  | .Appeared n _ => n
  | .Disappeared n _ => n
  | .Missing n => n

/-- Discriminator for the `Disappeared` variant. -/
def ProcDogEvent.isDisappeared : ProcDogEvent → Bool
  | .Disappeared _ _ => true
  | _ => false

namespace ProcDog

/-- The PID set of one name in a backend listing:
`procs.iter().filter(|(_, n)| n == name).map(|(pid, _)| *pid)`. -/
def pidsOf (procs : List (Int × String)) (name : String) : List Int :=
  (procs.filter (fun pr => pr.2 == name)).map Prod.fst

/-- The events fired for one watched name in `tick_once`: all `Appeared`
for `current \ previous`, then all `Disappeared` for `previous \ current`. -/
def name_tick_events (current previous : List Int) (name : String) :
    List ProcDogEvent :=
  let appeared := current.filter (fun pid => !previous.contains pid)
  let disappeared := previous.filter (fun pid => !current.contains pid)
  appeared.map (ProcDogEvent.Appeared name) ++
    disappeared.map (ProcDogEvent.Disappeared name)

/-- The body of `ProcDog::prime`'s loop over `watched` for one name:
skip ignored names, else snapshot the PID set (firing `Missing` when
configured and the set is empty) and record it. -/
def prime_step (ignored : List String) (emit_missing_on_start : Bool)
    (procs : List (Int × String))
    (acc : List (String × List Int) × List ProcDogEvent) (name : String) :
    List (String × List Int) × List ProcDogEvent :=
  if ignored.contains name then acc
  else
    let pids := pidsOf procs name
    let evs :=
      if emit_missing_on_start && pids.isEmpty then
        acc.2 ++ [ProcDogEvent.Missing name]
      else acc.2
    (insertAL acc.1 name pids, evs)

/-- Embeds `ProcDog::prime`: on a successful listing, run `prime_step` over the
watched names; a listing error does nothing. -/
def prime (watched ignored : List String) (emit_missing_on_start : Bool)
    (backend : Option (List (Int × String))) (state : List (String × List Int)) :
    List (String × List Int) × List ProcDogEvent :=
  match backend with
  | none => (state, [])
  | some procs =>
    watched.foldl (prime_step ignored emit_missing_on_start procs) (state, [])

/-- The body of `ProcDog::tick_once`'s loop over `watched` for one name:
skip ignored names, else diff the current PID set against the recorded
one, fire, and record. -/
def tick_step (ignored : List String) (procs : List (Int × String))
    (acc : List (String × List Int) × List ProcDogEvent) (name : String) :
    List (String × List Int) × List ProcDogEvent :=
  if ignored.contains name then acc
  else
    let current := pidsOf procs name
    let previous := (lookupAL acc.1 name).getD []
    (insertAL acc.1 name current, acc.2 ++ name_tick_events current previous name)

/-- Embeds `ProcDog::tick_once`: a listing error returns with nothing; else run
`tick_step` over the watched names. -/
def tick_once (watched ignored : List String)
    (backend : Option (List (Int × String))) (state : List (String × List Int)) :
    List (String × List Int) × List ProcDogEvent :=
  match backend with
  | none => (state, [])
  | some procs =>
    watched.foldl (tick_step ignored procs) (state, [])

end ProcDog

/-! ## XMount (`xmount/src/lib.rs`) -/

/-- Embeds `MountInfo` from `xmount/src/events.rs` (paths as strings). -/
structure MountInfo where
  mount_id : Nat
  parent_id : Nat
  mount_point : String
  root : String
  fstype : String
  source : String
  mount_opts : String
  super_opts : String
deriving DecidableEq, Repr

/-- Embeds `XMountEvent` from `xmount/src/events.rs`. -/
inductive XMountEvent where
  | Mounted (target : String) (info : MountInfo)
  | Unmounted (target : String) (lastInfo : MountInfo)
  | Changed (target : String) (old new : MountInfo)
deriving DecidableEq, Repr

/-- Discriminator for the `Unmounted` variant. -/
def XMountEvent.isUnmounted : XMountEvent → Bool
  | .Unmounted _ _ => true
  | _ => false

namespace XMount

/-- Embeds `XMount::materially_diff`, Linux configuration: any difference in the
seven fields other than `mount_point`. -/
def materially_diff (a b : MountInfo) : Bool :=
  a.mount_id != b.mount_id || a.parent_id != b.parent_id || a.root != b.root ||
    a.fstype != b.fstype || a.source != b.source || a.mount_opts != b.mount_opts ||
    a.super_opts != b.super_opts

/-- Embeds `XMount::snapshot_for_watched`: project the mountinfo records onto the
watched mountpoints, keyed by `mount_point`. -/
def snapshot_for_watched (watched : List String) (all : List MountInfo) :
    List (String × MountInfo) :=
  all.foldl
    (fun m mi =>
      if watched.contains mi.mount_point then insertAL m mi.mount_point mi else m)
    []

/-- The events fired by one tick of `XMount::run` (after priming, so
`is_primed` is true): the `now` pass (`Mounted` for new mountpoints,
`Changed` for materially different ones), then the `last` pass
(`Unmounted` for mountpoints that vanished). -/
def tickEvents («last» now : List (String × MountInfo)) : List XMountEvent :=
  (now.filterMap (fun mpInfo =>
    match lookupAL «last» mpInfo.1 with
    | none => some (XMountEvent.Mounted mpInfo.1 mpInfo.2)
    | some old =>
      if materially_diff old mpInfo.2 then
        some (XMountEvent.Changed mpInfo.1 old mpInfo.2)
      else none)) ++
  («last».filterMap (fun mpOld =>
    if (lookupAL now mpOld.1).isNone then
      some (XMountEvent.Unmounted mpOld.1 mpOld.2)
    else none))

/-- The tick loop of `XMount::run` over a finite script of mountinfo
reads (the script ends when the sensor is cancelled): a read error logs
and skips the tick, leaving `last` unchanged; a successful read fires the
diff events and adopts the snapshot. -/
def loopTicks (watched : List String) :
    List (String × MountInfo) → List (Except String (List MountInfo)) →
    List XMountEvent
  | _, [] => []
  | «last», .error _ :: rest => loopTicks watched «last» rest
  | «last», .ok all :: rest =>
    let now := snapshot_for_watched watched all
    tickEvents «last» now ++ loopTicks watched now rest

/-- Embeds `XMount::run`: exit `Ok` immediately when nothing is watched; a prime
read error aborts with the error before any tick; otherwise prime
silently and run the tick loop. -/
def run (watched : List String) (primeRead : Except String (List MountInfo))
    (ticks : List (Except String (List MountInfo))) :
    Except String (List XMountEvent) :=
  if watched.isEmpty then Except.ok []
  else
    match primeRead with
    | .error e => Except.error e
    | .ok all => Except.ok (loopTicks watched (snapshot_for_watched watched all) ticks)

end XMount

/-! ## Sanity examples -/

example : Netutil.hex_port "01BB" = some 443 := by decide
example : Netutil.dec_ipv4 "0100007F" = some "1.0.0.127" := by decide
example : Netutil.dec_ipv4 "7F000001" = some "127.0.0.1" := by decide
example : Netutil.decode_addr "0100007F:01BB" false = some "1.0.0.127:443" := by decide
example : Netutil.dec_ipv6 "00000000000000000000000000000001" = some "::1" := by decide
example : patMatches "tcp * 1.2.3.4:*" "tcp 10.0.0.1:8080 1.2.3.4:443" = true := by decide
example : patMatches "tcp * 1.2.3.4:*"
    "tcp raw:0100007A:1F90->04030201:01BB dec:10.0.0.1:8080->1.2.3.4:443 state:01:ESTABLISHED"
    = false := by decide
example : is_hostish "tcp * 1.2.3.4:*" = true := by decide

/-! ## Helper lemmas -/

theorem lookupAL_eq_none {κ α : Type} [DecidableEq κ] (m : List (κ × α)) (k : κ) :
    lookupAL m k = none ↔ k ∉ m.map Prod.fst := by
  induction m with
  | nil => simp [lookupAL]
  | cons kv rest ih =>
    obtain ⟨k2, v⟩ := kv
    by_cases h : k2 = k <;> simp [lookupAL, h, ih]
    tauto

theorem lookupAL_mem {κ α : Type} [DecidableEq κ] (m : List (κ × α)) (k : κ) (v : α)
    (hm : (m.map Prod.fst).Nodup) (hmem : (k, v) ∈ m) : lookupAL m k = some v := by
  induction m with
  | nil => simp at hmem
  | cons kv rest ih =>
    simp only [List.map_cons, List.nodup_cons] at hm
    rcases List.mem_cons.1 hmem with h | h
    · subst h
      simp [lookupAL]
    · have hne : kv.1 ≠ k := by
        intro he
        exact hm.1 (he ▸ List.mem_map_of_mem Prod.fst h)
      simp [lookupAL, hne, ih hm.2 h]

theorem lookupAL_map_update_ne {κ α : Type} [DecidableEq κ] (m : List (κ × α))
    (k k2 : κ) (v : α) (hne : k ≠ k2) :
    lookupAL (m.map (fun kv => if kv.1 = k then (k, v) else kv)) k2 = lookupAL m k2 := by
  induction m with
  | nil => rfl
  | cons kv rest ih =>
    obtain ⟨a, b⟩ := kv
    rw [List.map_cons]
    by_cases hak : a = k
    · subst hak
      rw [show (if (a, b).1 = a then (a, v) else (a, b)) = (a, v) from by simp]
      simp [lookupAL, hne, ih]
    · rw [show (if (a, b).1 = k then (k, v) else (a, b)) = (a, b) from by simp [hak]]
      by_cases hak2 : a = k2 <;> simp [lookupAL, hak2, ih]

theorem lookupAL_append_single_ne {κ α : Type} [DecidableEq κ] (m : List (κ × α))
    (k k2 : κ) (v : α) (hne : k ≠ k2) :
    lookupAL (m ++ [(k, v)]) k2 = lookupAL m k2 := by
  induction m with
  | nil => simp [lookupAL, hne]
  | cons kv rest ih =>
    obtain ⟨a, b⟩ := kv
    by_cases hak2 : a = k2 <;> simp [lookupAL, hak2, ih]

theorem lookupAL_insertAL_ne {κ α : Type} [DecidableEq κ] (m : List (κ × α))
    (k k2 : κ) (v : α) (hne : k ≠ k2) :
    lookupAL (insertAL m k v) k2 = lookupAL m k2 := by
  rw [insertAL]
  by_cases hs : (lookupAL m k).isSome
  · rw [if_pos hs]
    exact lookupAL_map_update_ne m k k2 v hne
  · rw [if_neg hs]
    exact lookupAL_append_single_ne m k k2 v hne

namespace FileScream

theorem diffEv_key (fstate : List (FsPath × Fingerprint)) (pv : FsPath × Fingerprint)
    (ev : FileScreamEvent) (h : diffEv fstate pv = some ev) : ev.evKey = pv.1 := by
  unfold diffEv at h
  rcases hl : lookupAL fstate pv.1 with _ | old <;> rw [hl] at h
  · cases h
    rfl
  · by_cases hne : old ≠ pv.2 <;> simp [hne] at h
    cases h
    rfl

theorem removedEv_key (new_files : List (FsPath × Fingerprint))
    (pv : FsPath × Fingerprint) (ev : FileScreamEvent)
    (h : removedEv new_files pv = some ev) : ev.evKey = pv.1 := by
  unfold removedEv at h
  by_cases hn : (lookupAL new_files pv.1).isNone <;> simp [hn] at h
  cases h
  rfl

theorem diffEv_not_removed (fstate : List (FsPath × Fingerprint))
    (pv : FsPath × Fingerprint) (ev : FileScreamEvent)
    (h : diffEv fstate pv = some ev) : ev.isRemoved = false := by
  unfold diffEv at h
  rcases hl : lookupAL fstate pv.1 with _ | old <;> rw [hl] at h
  · cases h
    rfl
  · by_cases hne : old ≠ pv.2 <;> simp [hne] at h
    cases h
    rfl

theorem removedEv_removed (new_files : List (FsPath × Fingerprint))
    (pv : FsPath × Fingerprint) (ev : FileScreamEvent)
    (h : removedEv new_files pv = some ev) : ev.isRemoved = true := by
  unfold removedEv at h
  by_cases hn : (lookupAL new_files pv.1).isNone <;> simp [hn] at h
  cases h
  rfl

/-- Counting events produced by a keyed per-entry function over a map with
unique keys: the count of `e` is decided by the unique entry at `e`'s key. -/
theorem count_filterMap_keyed {α : Type} (f : (FsPath × α) → Option FileScreamEvent)
    (hk : ∀ pv ev, f pv = some ev → ev.evKey = pv.1)
    (l : List (FsPath × α)) (hl : (l.map Prod.fst).Nodup) (e : FileScreamEvent) :
    (l.filterMap f).count e =
      (match lookupAL l e.evKey with
       | some v => if f (e.evKey, v) = some e then 1 else 0
       | none => 0) := by
  induction l with
  | nil => simp [lookupAL]
  | cons pv rest ih =>
    obtain ⟨k, v⟩ := pv
    simp only [List.map_cons, List.nodup_cons] at hl
    obtain ⟨hk1, hk2⟩ := hl
    by_cases hkey : k = e.evKey
    · have hrest : lookupAL rest e.evKey = none :=
        (lookupAL_eq_none rest e.evKey).2 (hkey ▸ hk1)
      have hcount : (rest.filterMap f).count e = 0 := by
        rw [ih hk2, hrest]
      have hlk : lookupAL ((k, v) :: rest) e.evKey = some v := by
        simp [lookupAL, hkey]
      rw [List.filterMap_cons, hlk, ← hkey]
      cases hf : f (k, v) with
      | none =>
        simp only [hf]
        rw [hcount, if_neg (fun h => Option.noConfusion h)]
      | some e2 =>
        by_cases he : e2 = e
        · subst he
          simp only [hf]
          rw [List.count_cons, hcount]
          simp
        · simp only [hf]
          rw [List.count_cons, hcount]
          simp [he]
    · have hne : ∀ e2, f (k, v) = some e2 → e2 ≠ e := by
        intro e2 hf2 he
        subst he
        exact hkey (hk _ _ hf2).symm
      have hlk : lookupAL ((k, v) :: rest) e.evKey = lookupAL rest e.evKey := by
        simp [lookupAL, hkey]
      rw [List.filterMap_cons]
      cases hf : f (k, v) with
      | none =>
        simp only [hf]
        rw [ih hk2, hlk]
      | some e2 =>
        simp only [hf]
        rw [List.count_cons, ih hk2, hlk]
        simp [beq_eq_false_iff_ne.2 (hne e2 hf)]

theorem filterMap_eq_nil_of_none {α β : Type} {f : α → Option β} {l : List α}
    (h : ∀ a ∈ l, f a = none) : l.filterMap f = [] := by
  induction l with
  | nil => rfl
  | cons a rest ih =>
    rw [List.filterMap_cons, h a (List.mem_cons_self a rest)]
    exact ih (fun b hb => h b (List.mem_cons_of_mem a hb))

end FileScream

/-- In a concatenation whose first part satisfies `P = false` throughout
and whose second part satisfies `P = true` throughout, every index with
`P = false` precedes every index with `P = true`. -/
theorem index_lt_of_partition {α : Type} (l1 l2 : List α) (P : α → Bool)
    (h1 : ∀ a ∈ l1, P a = false) (h2 : ∀ a ∈ l2, P a = true)
    (i j : Nat) (hi : i < (l1 ++ l2).length) (hj : j < (l1 ++ l2).length)
    (hPi : P ((l1 ++ l2)[i]) = false) (hPj : P ((l1 ++ l2)[j]) = true) :
    i < j := by
  have hlen : (l1 ++ l2).length = l1.length + l2.length := by
    simp
  have hjge : l1.length ≤ j := by
    by_contra hcon
    push_neg at hcon
    rw [List.getElem_append_left hcon] at hPj
    rw [h1 _ (List.getElem_mem hcon)] at hPj
    exact Bool.noConfusion hPj
  have hilt : i < l1.length := by
    by_contra hcon
    push_neg at hcon
    rw [List.getElem_append_right hcon] at hPi
    rw [h2 _ (List.getElem_mem _)] at hPi
    exact Bool.noConfusion hPi
  omega

/-- The matcher of a `NetNotify` with no patterns accepts everything. -/
theorem matches_empty_accepts (c : ConnKey) : NetNotify.empty.matches c = true := by
  simp [NetNotify.matches, NetNotify.empty]

/-! ## Claim theorems -/

/-- C1: the claim says `decode_addr` decodes the 8-hex-digit IPv4 field as
a little-endian `u32` whose bytes are formatted in order (so
`decode_addr("0100007F:01BB", v6=false) = Some("127.0.0.1:443")`), and the
repository's unit tests (`dec_ipv4_decodes_current_logic`,
`decode_addr_ipv4`) assert exactly that.  The code however computes
`Ipv4Addr::from(u32::from_le(v))`, which on the little-endian target
formats the value's big-endian bytes: the failing input `"0100007F:01BB"`
decodes to `"1.0.0.127:443"`, contradicting the claim and the tests. -/
theorem C1_decode_addr_endianness_bug :
    Netutil.decode_addr "0100007F:01BB" false = some "1.0.0.127:443" ∧
    Netutil.decode_addr "0100007F:01BB" false ≠ some "127.0.0.1:443" ∧
    Netutil.dec_ipv4 "0100007F" = some "1.0.0.127" ∧
    Netutil.dec_ipv4 "7F000001" = some "127.0.0.1" := by decide

/-- C2 counterexample: the claim says that with `"tcp * 1.2.3.4:*"` as the
only pattern registered via `NetNotify::add`, the matcher accepts the
connection whose decoded remote is `1.2.3.4:443`.  In the code the
pattern contains ASCII letters, so `add` classifies it host-like and
pushes it onto `watch_host` (not the generic `watch`); with no resolved
hostname the matcher rejects the connection. -/
theorem C2_counterexample_host_classified :
    (NetNotify.empty.add "tcp * 1.2.3.4:*").watch_host = ["tcp * 1.2.3.4:*"] ∧
    (NetNotify.empty.add "tcp * 1.2.3.4:*").watch = [] ∧
    (NetNotify.empty.add "tcp * 1.2.3.4:*").matches connTo1234 = false := by decide

/-- C2 (amended): patterns are classified at registration exactly as the
claim states (host-like when they contain ASCII letters or both `*` and
`.`, else ip-like when only digits/`.`/`:`/`*`, else generic DSL), but
`"tcp * 1.2.3.4:*"` itself contains letters, is therefore host-like, and
after registering it via `add` the matcher rejects every connection whose
remote hostname is unresolved — including both `1.2.3.4:443` and
`8.8.8.8:443`. -/
theorem C2_amended_classification_and_rejection :
    (∀ p : String,
      (NetNotify.empty.add p).watch_host = (if is_hostish p then [p] else []) ∧
      (NetNotify.empty.add p).watch_ip =
        (if is_hostish p then [] else if is_ipish p then [p] else []) ∧
      (NetNotify.empty.add p).watch =
        (if is_hostish p then [] else if is_ipish p then [] else [p]) ∧
      (NetNotify.empty.add p).dns = is_hostish p) ∧
    is_hostish "tcp * 1.2.3.4:*" = true ∧
    (∀ c : ConnKey, c.remote_host = none →
      (NetNotify.empty.add "tcp * 1.2.3.4:*").matches c = false) := by
  refine ⟨?_, by decide, ?_⟩
  · intro p
    by_cases h1 : is_hostish p <;> by_cases h2 : is_ipish p <;>
      simp [NetNotify.add, NetNotify.empty, h1, h2]
  · intro c h
    have hnn : NetNotify.empty.add "tcp * 1.2.3.4:*" =
        { dns := true, watch := [], ignore := [], watch_ip := [],
          watch_host := ["tcp * 1.2.3.4:*"], ignore_ip := [], ignore_host := [] } := by
      decide
    rw [hnn]
    simp [NetNotify.matches, h]
    decide

/-- Witness for `C2_amended_classification_and_rejection`: both sample
connections have no resolved hostname and are rejected. -/
theorem C2_amended_witness :
    connTo1234.remote_host = none ∧ connTo8888.remote_host = none ∧
    (NetNotify.empty.add "tcp * 1.2.3.4:*").matches connTo1234 = false ∧
    (NetNotify.empty.add "tcp * 1.2.3.4:*").matches connTo8888 = false :=
  ⟨rfl, rfl,
    C2_amended_classification_and_rejection.2.2 connTo1234 rfl,
    C2_amended_classification_and_rejection.2.2 connTo8888 rfl⟩

/-- C3: against the prior `fstate`, a primed tick fires exactly one
`Created` per path new in the snapshot, exactly one `Changed` per path
present in both with a differing fingerprint, exactly one `Removed` per
path that disappeared, and nothing for a path whose fingerprint is
unchanged; in particular an unchanged snapshot fires no events. -/
theorem C3_tick_diff_exactness (fstate new_files : List (FsPath × Fingerprint))
    (hf : (fstate.map Prod.fst).Nodup) (hn : (new_files.map Prod.fst).Nodup)
    (p : FsPath) :
    ((FileScream.tickDiffEvents fstate new_files).count (.Created p) =
      if (lookupAL new_files p).isSome ∧ lookupAL fstate p = none then 1 else 0) ∧
    ((FileScream.tickDiffEvents fstate new_files).count (.Changed p) =
      if (lookupAL fstate p).isSome ∧ (lookupAL new_files p).isSome ∧
          lookupAL fstate p ≠ lookupAL new_files p then 1 else 0) ∧
    ((FileScream.tickDiffEvents fstate new_files).count (.Removed p) =
      if (lookupAL fstate p).isSome ∧ lookupAL new_files p = none then 1 else 0) ∧
    FileScream.tickDiffEvents fstate fstate = [] := by
  have hmain : ∀ e : FileScreamEvent,
      (FileScream.tickDiffEvents fstate new_files).count e =
        (match lookupAL new_files e.evKey with
         | some v => if FileScream.diffEv fstate (e.evKey, v) = some e then 1 else 0
         | none => 0) +
        (match lookupAL fstate e.evKey with
         | some v => if FileScream.removedEv new_files (e.evKey, v) = some e then 1 else 0
         | none => 0) := by
    intro e
    rw [FileScream.tickDiffEvents, List.count_append,
      FileScream.count_filterMap_keyed _ (FileScream.diffEv_key fstate) _ hn,
      FileScream.count_filterMap_keyed _ (FileScream.removedEv_key new_files) _ hf]
    cases lookupAL new_files e.evKey <;> cases lookupAL fstate e.evKey <;> rfl
  refine ⟨?_, ?_, ?_, ?_⟩
  · rw [hmain (.Created p)]
    simp only [FileScreamEvent.evKey]
    cases h1 : lookupAL fstate p <;> cases h2 : lookupAL new_files p <;>
      simp [FileScream.diffEv, FileScream.removedEv, h1, h2]
  · rw [hmain (.Changed p)]
    simp only [FileScreamEvent.evKey]
    cases h1 : lookupAL fstate p with
    | none =>
      cases h2 : lookupAL new_files p <;>
        simp [FileScream.diffEv, FileScream.removedEv, h1, h2]
    | some a =>
      cases h2 : lookupAL new_files p with
      | none => simp [FileScream.diffEv, FileScream.removedEv, h1, h2]
      | some b =>
        by_cases hab : a = b <;>
          simp [FileScream.diffEv, FileScream.removedEv, h1, h2, hab]
  · rw [hmain (.Removed p)]
    simp only [FileScreamEvent.evKey]
    cases h1 : lookupAL fstate p <;> cases h2 : lookupAL new_files p <;>
      simp [FileScream.diffEv, FileScream.removedEv, h1, h2]
  · rw [FileScream.tickDiffEvents]
    have h1 : fstate.filterMap (FileScream.diffEv fstate) = [] := by
      refine FileScream.filterMap_eq_nil_of_none (fun pv hpv => ?_)
      have : lookupAL fstate pv.1 = some pv.2 := lookupAL_mem fstate pv.1 pv.2 hf hpv
      simp [FileScream.diffEv, this]
    have h2 : fstate.filterMap (FileScream.removedEv fstate) = [] := by
      refine FileScream.filterMap_eq_nil_of_none (fun pv hpv => ?_)
      have : lookupAL fstate pv.1 = some pv.2 := lookupAL_mem fstate pv.1 pv.2 hf hpv
      simp [FileScream.removedEv, this]
    rw [h1, h2]
    rfl

/-- Witness for `C3_tick_diff_exactness` at a concrete diff. -/
theorem C3_tick_diff_exactness_witness :
    ((fstateW.map Prod.fst).Nodup ∧ (newFilesW.map Prod.fst).Nodup) ∧
    (((FileScream.tickDiffEvents fstateW newFilesW).count (.Created ["a"]) =
      if (lookupAL newFilesW ["a"]).isSome ∧ lookupAL fstateW ["a"] = none then 1 else 0) ∧
    ((FileScream.tickDiffEvents fstateW newFilesW).count (.Changed ["a"]) =
      if (lookupAL fstateW ["a"]).isSome ∧ (lookupAL newFilesW ["a"]).isSome ∧
          lookupAL fstateW ["a"] ≠ lookupAL newFilesW ["a"] then 1 else 0) ∧
    ((FileScream.tickDiffEvents fstateW newFilesW).count (.Removed ["a"]) =
      if (lookupAL fstateW ["a"]).isSome ∧ lookupAL newFilesW ["a"] = none then 1 else 0) ∧
    FileScream.tickDiffEvents fstateW fstateW = []) :=
  ⟨⟨by decide, by decide⟩,
    C3_tick_diff_exactness fstateW newFilesW (by decide) (by decide) ["a"]⟩

/-- C4 counterexample: the claim says every payload delivery (including
`CallbackHub::fire`, one of its cited sources) uses a try-send that drops
on a full or closed channel and never blocks.  `CallbackHub::fire`
actually awaits `tx.send(r).await`: on an open, full channel (capacity 1,
one queued message) the dispatch blocks — `fire` never returns — instead
of dropping the payload; only `FileScream::fire` uses `try_send`. -/
theorem C4_counterexample_hub_fire_blocks :
    CallbackHub.fire 1 [(1, some 7)] (some ⟨1, 1, false⟩) 0 = none ∧
    FileScream.fire [(true, some 7)] (some ⟨1, 1, false⟩) [] =
      ([7], some ⟨1, 1, false⟩) := by decide

/-- C4 (amended): `FileScream::fire` delivers payloads with `try_send` —
on a full or closed channel every payload is dropped, the channel is left
unchanged, dispatch continues through the remaining callbacks and all
matching results are still collected, and the call never blocks; but
`CallbackHub::fire` awaits `tx.send(r).await`, which blocks the dispatch
when the channel is open and full; its send failure on a closed channel
is dropped and dispatch continues with the next callback. -/
theorem C4_amended_send_policies :
    (∀ (cbs : List (Bool × Option Nat)) (c : BoundedChan) (out : List Nat),
      c.closed = true ∨ c.cap ≤ c.len →
      FileScream.fire cbs (some c) out =
        (out ++ cbs.filterMap (fun cb => if cb.1 then cb.2 else none), some c)) ∧
    (∀ (ev_mask m v : Nat) (rest : List (Nat × Option Nat)) (c : BoundedChan) (n : Nat),
      ¬ m &&& ev_mask = 0 → c.closed = false → c.cap ≤ c.len →
      CallbackHub.fire ev_mask ((m, some v) :: rest) (some c) n = none) ∧
    (∀ (ev_mask m v : Nat) (rest : List (Nat × Option Nat)) (c : BoundedChan) (n : Nat),
      ¬ m &&& ev_mask = 0 → c.closed = true →
      CallbackHub.fire ev_mask ((m, some v) :: rest) (some c) n =
        CallbackHub.fire ev_mask rest (some c) (n + 1)) := by
  refine ⟨?_, ?_, ?_⟩
  · intro cbs c out h
    have hts : (try_send c).1 = c := by
      unfold try_send
      rcases h with h | h
      · rw [if_pos h]
      · by_cases hc : c.closed
        · rw [if_pos hc]
        · rw [if_neg hc, if_pos h]
    induction cbs generalizing out with
    | nil => simp [FileScream.fire]
    | cons cb rest ih =>
      obtain ⟨matched, r⟩ := cb
      cases matched with
      | false => simp [FileScream.fire, ih out]
      | true =>
        cases r with
        | none => simp [FileScream.fire, ih out]
        | some v =>
          simp [FileScream.fire, hts, ih (out ++ [v])]
  · intro ev_mask m v rest c n hmask hopen hfull
    have hsend : send_await c = none := by
      unfold send_await
      rw [if_neg (by simp [hopen]), if_neg (by omega)]
    simp [CallbackHub.fire, hmask, hsend]
  · intro ev_mask m v rest c n hmask hclosed
    have hsend : send_await c = some c := by
      unfold send_await
      rw [if_pos hclosed]
    simp [CallbackHub.fire, hmask, hsend]

/-- Witness for `C4_amended_send_policies` on a concrete full channel and
a concrete closed channel. -/
theorem C4_amended_send_policies_witness :
    ((⟨1, 1, false⟩ : BoundedChan).cap ≤ (⟨1, 1, false⟩ : BoundedChan).len) ∧
    FileScream.fire [(true, some 7), (false, some 8), (true, none), (true, some 9)]
        (some ⟨1, 1, false⟩) [] = ([7, 9], some ⟨1, 1, false⟩) ∧
    CallbackHub.fire 3 [(1, some 7)] (some ⟨1, 1, false⟩) 0 = none ∧
    CallbackHub.fire 3 [(1, some 7), (2, some 8)] (some ⟨2, 5, true⟩) 0 =
      CallbackHub.fire 3 [(2, some 8)] (some ⟨2, 5, true⟩) 1 :=
  ⟨by decide,
    by
      have h := C4_amended_send_policies.1
        [(true, some 7), (false, some 8), (true, none), (true, some 9)]
        ⟨1, 1, false⟩ [] (Or.inr (by decide))
      simpa using h,
    C4_amended_send_policies.2.1 3 1 7 [] ⟨1, 1, false⟩ 0 (by decide) rfl (by decide),
    C4_amended_send_policies.2.2 3 1 7 [(2, some 8)] ⟨2, 5, true⟩ 0 (by decide) rfl⟩

/-- C5 counterexample: the claim says FileScream fires all `Created`
events, then all `Changed` events, then all `Removed` events within one
tick.  The `run` loop iterates the snapshot map once, firing `Created`
and `Changed` interleaved in iteration order: with prior state
`{a ↦ h₁, c ↦ h₂}` and snapshot `{a ↦ h₁', b ↦ h₃}` (iterated `a` before
`b`), `Changed a` fires before `Created b`. -/
theorem C5_counterexample_changed_before_created :
    FileScream.tickDiffEvents fstateW newFilesW =
      [FileScreamEvent.Changed ["a"], FileScreamEvent.Created ["b"],
        FileScreamEvent.Removed ["c"]] := by decide

/-- C5 (amended): within one tick, FileScream fires the `Created` and
`Changed` events interleaved in snapshot iteration order, followed by all
`Removed` events (every non-`Removed` event precedes every `Removed`
event); NetNotify fires all `Opened` before all `Closed`; ProcDog fires,
per watched name, `Appeared` before `Disappeared`; XMount fires
`Mounted`/`Changed` before `Unmounted`. -/
theorem C5_amended_tick_event_order :
    (∀ (fstate new_files : List (FsPath × Fingerprint)) (i j : Nat)
      (hi : i < (FileScream.tickDiffEvents fstate new_files).length)
      (hj : j < (FileScream.tickDiffEvents fstate new_files).length),
      ((FileScream.tickDiffEvents fstate new_files)[i]).isRemoved = false →
      ((FileScream.tickDiffEvents fstate new_files)[j]).isRemoved = true → i < j) ∧
    (∀ (nn : NetNotify) (enrich : ConnKey → ConnKey) (lastC nowC : List ConnKey)
      (i j : Nat)
      (hi : i < (nn.tickEvents enrich lastC nowC).length)
      (hj : j < (nn.tickEvents enrich lastC nowC).length),
      ((nn.tickEvents enrich lastC nowC)[i]).isClosed = false →
      ((nn.tickEvents enrich lastC nowC)[j]).isClosed = true → i < j) ∧
    (∀ (current previous : List Int) (nm : String) (i j : Nat)
      (hi : i < (ProcDog.name_tick_events current previous nm).length)
      (hj : j < (ProcDog.name_tick_events current previous nm).length),
      ((ProcDog.name_tick_events current previous nm)[i]).isDisappeared = false →
      ((ProcDog.name_tick_events current previous nm)[j]).isDisappeared = true →
      i < j) ∧
    (∀ (lastM nowM : List (String × MountInfo)) (i j : Nat)
      (hi : i < (XMount.tickEvents lastM nowM).length)
      (hj : j < (XMount.tickEvents lastM nowM).length),
      ((XMount.tickEvents lastM nowM)[i]).isUnmounted = false →
      ((XMount.tickEvents lastM nowM)[j]).isUnmounted = true → i < j) := by
  refine ⟨?_, ?_, ?_, ?_⟩
  · intro fstate new_files i j hi hj hPi hPj
    have h1 : ∀ ev ∈ new_files.filterMap (FileScream.diffEv fstate),
        FileScreamEvent.isRemoved ev = false := by
      intro ev hev
      obtain ⟨pv, _, hf⟩ := List.mem_filterMap.1 hev
      exact FileScream.diffEv_not_removed fstate pv ev hf
    have h2 : ∀ ev ∈ fstate.filterMap (FileScream.removedEv new_files),
        FileScreamEvent.isRemoved ev = true := by
      intro ev hev
      obtain ⟨pv, _, hf⟩ := List.mem_filterMap.1 hev
      exact FileScream.removedEv_removed new_files pv ev hf
    exact index_lt_of_partition _ _ _ h1 h2 i j hi hj hPi hPj
  · intro nn enrich lastC nowC i j hi hj hPi hPj
    have h1 : ∀ ev ∈ (nowC.filter (fun k => !lastC.contains k)).filterMap
        (fun k =>
          let k := enrich k
          if nn.matches k then some (NetNotifyEvent.Opened k) else none),
        NetNotifyEvent.isClosed ev = false := by
      intro ev hev
      obtain ⟨a, _, hf⟩ := List.mem_filterMap.1 hev
      by_cases hm : nn.matches (enrich a) = true
      · simp only [hm, if_true] at hf
        rw [← Option.some.inj hf]
        rfl
      · simp [hm] at hf
    have h2 : ∀ ev ∈ (lastC.filter (fun k => !nowC.contains k)).filterMap
        (fun k =>
          let k := enrich k
          if nn.matches k then some (NetNotifyEvent.Closed k) else none),
        NetNotifyEvent.isClosed ev = true := by
      intro ev hev
      obtain ⟨a, _, hf⟩ := List.mem_filterMap.1 hev
      by_cases hm : nn.matches (enrich a) = true
      · simp only [hm, if_true] at hf
        rw [← Option.some.inj hf]
        rfl
      · simp [hm] at hf
    exact index_lt_of_partition _ _ _ h1 h2 i j hi hj hPi hPj
  · intro current previous nm i j hi hj hPi hPj
    have h1 : ∀ ev ∈ (current.filter (fun pid => !previous.contains pid)).map
        (ProcDogEvent.Appeared nm), ProcDogEvent.isDisappeared ev = false := by
      intro ev hev
      obtain ⟨pid, _, he⟩ := List.mem_map.1 hev
      rw [← he]
      rfl
    have h2 : ∀ ev ∈ (previous.filter (fun pid => !current.contains pid)).map
        (ProcDogEvent.Disappeared nm), ProcDogEvent.isDisappeared ev = true := by
      intro ev hev
      obtain ⟨pid, _, he⟩ := List.mem_map.1 hev
      rw [← he]
      rfl
    exact index_lt_of_partition _ _ _ h1 h2 i j hi hj hPi hPj
  · intro lastM nowM i j hi hj hPi hPj
    have h1 : ∀ ev ∈ nowM.filterMap (fun mpInfo =>
        match lookupAL lastM mpInfo.1 with
        | none => some (XMountEvent.Mounted mpInfo.1 mpInfo.2)
        | some old =>
          if XMount.materially_diff old mpInfo.2 then
            some (XMountEvent.Changed mpInfo.1 old mpInfo.2)
          else none),
        XMountEvent.isUnmounted ev = false := by
      intro ev hev
      obtain ⟨mp, _, hf⟩ := List.mem_filterMap.1 hev
      rcases hl : lookupAL lastM mp.1 with _ | old <;> rw [hl] at hf
      · rw [← Option.some.inj hf]
        rfl
      · by_cases hd : XMount.materially_diff old mp.2 = true
        · simp only [hd, if_true] at hf
          rw [← Option.some.inj hf]
          rfl
        · simp [hd] at hf
    have h2 : ∀ ev ∈ lastM.filterMap (fun mpOld =>
        if (lookupAL nowM mpOld.1).isNone then
          some (XMountEvent.Unmounted mpOld.1 mpOld.2)
        else none),
        XMountEvent.isUnmounted ev = true := by
      intro ev hev
      obtain ⟨mp, _, hf⟩ := List.mem_filterMap.1 hev
      by_cases hn : (lookupAL nowM mp.1).isNone
      · simp only [hn, if_true] at hf
        rw [← Option.some.inj hf]
        rfl
      · simp [hn] at hf
    exact index_lt_of_partition _ _ _ h1 h2 i j hi hj hPi hPj

/-- Witness for `C5_amended_tick_event_order` on the concrete diff whose
events are `[Changed a, Created b, Removed c]`: the `Created` at index 1
precedes the `Removed` at index 2. -/
theorem C5_amended_tick_event_order_witness :
    (FileScream.tickDiffEvents fstateW newFilesW).length = 3 ∧ 1 < 2 :=
  ⟨by decide,
    C5_amended_tick_event_order.1 fstateW newFilesW 1 2 (by decide) (by decide)
      (by decide) (by decide)⟩

/-- C6: a directory whose recorded mtime stamp equals the previous tick's
stamp and which is not the current root is not descended — the scan
result copies every prior `fstate` entry whose path lies under it into
the output instead, and is independent of the directory's children; a
watched root is always descended (the short-circuit requires
`path != root`), even when its stamp is unchanged. -/
theorem C6_scan_short_circuit :
    (∀ (root : FsPath) (ign : FileScream.IgnorePreds)
      (prev_files : List (FsPath × Fingerprint)) (path : FsPath) (mtime_ns : Nat)
      (children : List (String × FileScream.FsNode)) (st : FileScream.ScanSt),
      ign.dir_only path = false → ign.any path = false →
      lookupAL st.dstate path = some mtime_ns → path ≠ root →
      FileScream.scanNode root ign prev_files path
          (FileScream.FsNode.dir mtime_ns children) st =
        { dstate := insertAL st.dstate path mtime_ns,
          out := prev_files.foldl
            (fun o pv =>
              if FileScream.is_under pv.1 path then insertAL o pv.1 pv.2 else o)
            st.out }) ∧
    (∀ (root : FsPath) (ign : FileScream.IgnorePreds)
      (prev_files : List (FsPath × Fingerprint)) (mtime_ns : Nat)
      (children : List (String × FileScream.FsNode)) (st : FileScream.ScanSt),
      ign.dir_only root = false → ign.any root = false →
      FileScream.scanNode root ign prev_files root
          (FileScream.FsNode.dir mtime_ns children) st =
        FileScream.scanChildren root ign prev_files root children
          { st with dstate := insertAL st.dstate root mtime_ns }) := by
  constructor
  · intro root ign prev_files path mtime_ns children st h1 h2 h3 h4
    rw [FileScream.scanNode]
    rw [if_neg (by simp [h1, h2])]
    rw [if_pos (by simp [h3, h4])]
  · intro root ign prev_files mtime_ns children st h1 h2
    rw [FileScream.scanNode]
    rw [if_neg (by simp [h1, h2])]
    rw [if_neg (by simp)]

/-- Witness for `C6_scan_short_circuit`: the directory `r/d`, stamped
unchanged at 5 and distinct from the root `r`, is short-circuited. -/
theorem C6_scan_short_circuit_witness :
    (ignNone.dir_only ["r", "d"] = false ∧ ignNone.any ["r", "d"] = false ∧
      lookupAL scanStW.dstate ["r", "d"] = some 5 ∧ (["r", "d"] : FsPath) ≠ ["r"]) ∧
    FileScream.scanNode ["r"] ignNone prevFilesW ["r", "d"]
        (FileScream.FsNode.dir 5 [("g", FileScream.FsNode.file 3 4)]) scanStW =
      { dstate := insertAL scanStW.dstate ["r", "d"] 5,
        out := prevFilesW.foldl
          (fun o pv =>
            if FileScream.is_under pv.1 ["r", "d"] then insertAL o pv.1 pv.2 else o)
          scanStW.out } :=
  ⟨⟨rfl, rfl, by decide, by decide⟩,
    C6_scan_short_circuit.1 ["r"] ignNone prevFilesW ["r", "d"] 5
      [("g", FileScream.FsNode.file 3 4)] scanStW rfl rfl (by decide) (by decide)⟩

/-- C7: `XMount::run` returns `Ok` without ticking when nothing is
watched; a mountinfo read error during priming returns the error before
any tick; a read error during a later tick fires no event, leaves `last`
unchanged and continues with the next tick. -/
theorem C7_xmount_error_policy :
    (∀ (primeRead : Except String (List MountInfo))
      (ticks : List (Except String (List MountInfo))),
      XMount.run [] primeRead ticks = Except.ok []) ∧
    (∀ (watched : List String) (e : String)
      (ticks : List (Except String (List MountInfo))),
      watched ≠ [] → XMount.run watched (Except.error e) ticks = Except.error e) ∧
    (∀ (watched : List String) (lastM : List (String × MountInfo)) (e : String)
      (rest : List (Except String (List MountInfo))),
      XMount.loopTicks watched lastM (Except.error e :: rest) =
        XMount.loopTicks watched lastM rest) := by
  refine ⟨fun p t => rfl, ?_, fun w l e r => rfl⟩
  intro watched e ticks hw
  cases watched with
  | nil => exact absurd rfl hw
  | cons a as => rfl

/-- Witness for `C7_xmount_error_policy`: a non-empty watch set with a
failing prime read aborts with that error. -/
theorem C7_xmount_error_policy_witness :
    (["/mnt/a"] : List String) ≠ [] ∧
    XMount.run ["/mnt/a"] (Except.error "io") [] = Except.error "io" :=
  ⟨by decide, C7_xmount_error_policy.2.1 ["/mnt/a"] "io" [] (by decide)⟩

/-- C10: the `FileScream::run` loop body, unlike the `Sensor`-trait
sensors, observes no cancellation — it takes no cancel input and every
pass continues the loop (there is no exit outcome), so the sensor can
never be shut down; the `NetNotify::run` loop body by contrast exits as
soon as its cancellation token fires. -/
theorem C10_filescream_loop_never_exits :
    (∀ (st : FileScream.FsRunState)
      (scanResult : List (FsPath × Fingerprint) × List (FsPath × Nat)),
      ∃ st2 evs, FileScream.loop_body st scanResult = LoopOutcome.cont st2 evs) ∧
    (∀ (nn : NetNotify) (enrich : ConnKey → ConnKey) (st : NetRunState)
      (readResult : Option (List ConnKey)),
      NetNotify.loop_body nn enrich true st readResult = LoopOutcome.exit) :=
  ⟨fun _ _ => ⟨_, _, rfl⟩, fun _ _ _ _ => rfl⟩

theorem name_tick_events_pname (current previous : List Int) (n : String) :
    ∀ ev ∈ ProcDog.name_tick_events current previous n, ev.pname = n := by
  intro ev hev
  simp only [ProcDog.name_tick_events] at hev
  rcases List.mem_append.1 hev with h | h
  · obtain ⟨pid, _, he⟩ := List.mem_map.1 h
    rw [← he]
    rfl
  · obtain ⟨pid, _, he⟩ := List.mem_map.1 h
    rw [← he]
    rfl

/-- C8: a process name that is both watched and ignored is never
observed: neither priming nor a tick fires any event carrying it, and
neither writes an entry for it into the state map (its state lookup is
untouched). -/
theorem C8_ignored_name_never_observed (watched ignored : List String)
    (emit : Bool) (backend : Option (List (Int × String)))
    (state : List (String × List Int)) (nm : String)
    (hig : ignored.contains nm = true) :
    (∀ ev ∈ (ProcDog.prime watched ignored emit backend state).2, ev.pname ≠ nm) ∧
    lookupAL (ProcDog.prime watched ignored emit backend state).1 nm =
      lookupAL state nm ∧
    (∀ ev ∈ (ProcDog.tick_once watched ignored backend state).2, ev.pname ≠ nm) ∧
    lookupAL (ProcDog.tick_once watched ignored backend state).1 nm =
      lookupAL state nm := by
  cases backend with
  | none =>
    refine ⟨?_, rfl, ?_, rfl⟩ <;>
      exact fun ev hev => absurd hev (List.not_mem_nil ev)
  | some procs =>
    have hstep_p : ∀ (acc : List (String × List Int) × List ProcDogEvent) (n : String),
        (∀ ev ∈ acc.2, ev.pname ≠ nm) → lookupAL acc.1 nm = lookupAL state nm →
        (∀ ev ∈ (ProcDog.prime_step ignored emit procs acc n).2, ev.pname ≠ nm) ∧
        lookupAL (ProcDog.prime_step ignored emit procs acc n).1 nm =
          lookupAL state nm := by
      intro acc n h1 h2
      unfold ProcDog.prime_step
      by_cases hn : ignored.contains n = true
      · rw [if_pos hn]
        exact ⟨h1, h2⟩
      · rw [if_neg hn]
        have hne : n ≠ nm := fun he => hn (he ▸ hig)
        constructor
        · intro ev hev
          dsimp only at hev
          by_cases hm : (emit && (ProcDog.pidsOf procs n).isEmpty) = true
          · rw [if_pos hm] at hev
            rcases List.mem_append.1 hev with h | h
            · exact h1 ev h
            · have hev2 : ev = ProcDogEvent.Missing n := List.mem_singleton.1 h
              rw [hev2]
              exact hne
          · rw [if_neg hm] at hev
            exact h1 ev hev
        · dsimp only
          rw [lookupAL_insertAL_ne acc.1 n nm _ hne]
          exact h2
    have hstep_t : ∀ (acc : List (String × List Int) × List ProcDogEvent) (n : String),
        (∀ ev ∈ acc.2, ev.pname ≠ nm) → lookupAL acc.1 nm = lookupAL state nm →
        (∀ ev ∈ (ProcDog.tick_step ignored procs acc n).2, ev.pname ≠ nm) ∧
        lookupAL (ProcDog.tick_step ignored procs acc n).1 nm = lookupAL state nm := by
      intro acc n h1 h2
      unfold ProcDog.tick_step
      by_cases hn : ignored.contains n = true
      · rw [if_pos hn]
        exact ⟨h1, h2⟩
      · rw [if_neg hn]
        have hne : n ≠ nm := fun he => hn (he ▸ hig)
        constructor
        · intro ev hev
          dsimp only at hev
          rcases List.mem_append.1 hev with h | h
          · exact h1 ev h
          · rw [name_tick_events_pname _ _ n ev h]
            exact hne
        · dsimp only
          rw [lookupAL_insertAL_ne acc.1 n nm _ hne]
          exact h2
    have hfold_p : ∀ (names : List String)
        (acc : List (String × List Int) × List ProcDogEvent),
        (∀ ev ∈ acc.2, ev.pname ≠ nm) → lookupAL acc.1 nm = lookupAL state nm →
        (∀ ev ∈ (names.foldl (ProcDog.prime_step ignored emit procs) acc).2,
          ev.pname ≠ nm) ∧
        lookupAL (names.foldl (ProcDog.prime_step ignored emit procs) acc).1 nm =
          lookupAL state nm := by
      intro names
      induction names with
      | nil => exact fun acc h1 h2 => ⟨h1, h2⟩
      | cons n rest ih =>
        intro acc h1 h2
        rw [List.foldl_cons]
        obtain ⟨h1a, h2a⟩ := hstep_p acc n h1 h2
        exact ih _ h1a h2a
    have hfold_t : ∀ (names : List String)
        (acc : List (String × List Int) × List ProcDogEvent),
        (∀ ev ∈ acc.2, ev.pname ≠ nm) → lookupAL acc.1 nm = lookupAL state nm →
        (∀ ev ∈ (names.foldl (ProcDog.tick_step ignored procs) acc).2,
          ev.pname ≠ nm) ∧
        lookupAL (names.foldl (ProcDog.tick_step ignored procs) acc).1 nm =
          lookupAL state nm := by
      intro names
      induction names with
      | nil => exact fun acc h1 h2 => ⟨h1, h2⟩
      | cons n rest ih =>
        intro acc h1 h2
        rw [List.foldl_cons]
        obtain ⟨h1a, h2a⟩ := hstep_t acc n h1 h2
        exact ih _ h1a h2a
    have hinit : ∀ ev ∈ ([] : List ProcDogEvent), ev.pname ≠ nm :=
      fun ev hev => absurd hev (List.not_mem_nil ev)
    obtain ⟨hp1, hp2⟩ := hfold_p watched (state, []) hinit rfl
    obtain ⟨ht1, ht2⟩ := hfold_t watched (state, []) hinit rfl
    exact ⟨hp1, hp2, ht1, ht2⟩

/-- Witness for `C8_ignored_name_never_observed`: `perl` is both watched
and ignored; a backend listing that contains it is never surfaced. -/
theorem C8_ignored_name_never_observed_witness :
    (["perl"] : List String).contains "perl" = true ∧
    ((∀ ev ∈ (ProcDog.prime ["perl", "cron"] ["perl"] true
        (some [(100, "perl")]) []).2, ev.pname ≠ "perl") ∧
      lookupAL (ProcDog.prime ["perl", "cron"] ["perl"] true
        (some [(100, "perl")]) []).1 "perl" =
        lookupAL ([] : List (String × List Int)) "perl" ∧
      (∀ ev ∈ (ProcDog.tick_once ["perl", "cron"] ["perl"]
        (some [(100, "perl")]) []).2, ev.pname ≠ "perl") ∧
      lookupAL (ProcDog.tick_once ["perl", "cron"] ["perl"]
        (some [(100, "perl")]) []).1 "perl" =
        lookupAL ([] : List (String × List Int)) "perl") :=
  ⟨by decide,
    C8_ignored_name_never_observed ["perl", "cron"] ["perl"] true
      (some [(100, "perl")]) [] "perl" (by decide)⟩

/-- C9: `ConnKey` equality is structural over all fields, including the
raw and decoded state; a connection whose TCP state alone changed between
two ticks yields two distinct keys, so the new key is in the opened
difference, the old key is in the closed difference, and the same tick
fires both `Opened` (new state) and `Closed` (old state). -/
theorem C9_connkey_state_change_fires_both
    (k_old k_new : ConnKey) (lastC nowC : List ConnKey)
    (hstate : k_new.state ≠ k_old.state)
    (_hproto : k_new.proto = k_old.proto)
    (_hlocal : k_new.«local» = k_old.«local»)
    (_hremote : k_new.remote = k_old.remote)
    (hol : k_old ∈ lastC) (hnn : k_new ∈ nowC)
    (hnl : k_new ∉ lastC) (hon : k_old ∉ nowC) :
    k_new ≠ k_old ∧
    k_new ∈ nowC.filter (fun k => !lastC.contains k) ∧
    k_old ∈ lastC.filter (fun k => !nowC.contains k) ∧
    NetNotifyEvent.Opened k_new ∈ NetNotify.empty.tickEvents id lastC nowC ∧
    NetNotifyEvent.Closed k_old ∈ NetNotify.empty.tickEvents id lastC nowC := by
  have hne : k_new ≠ k_old := fun h => hstate (by rw [h])
  have hmem1 : k_new ∈ nowC.filter (fun k => !lastC.contains k) := by
    rw [List.mem_filter]
    exact ⟨hnn, by simp [hnl]⟩
  have hmem2 : k_old ∈ lastC.filter (fun k => !nowC.contains k) := by
    rw [List.mem_filter]
    exact ⟨hol, by simp [hon]⟩
  refine ⟨hne, hmem1, hmem2, ?_, ?_⟩
  · simp only [NetNotify.tickEvents]
    refine List.mem_append_left _ (List.mem_filterMap.2 ⟨k_new, hmem1, ?_⟩)
    simp [matches_empty_accepts]
  · simp only [NetNotify.tickEvents]
    refine List.mem_append_right _ (List.mem_filterMap.2 ⟨k_old, hmem2, ?_⟩)
    simp [matches_empty_accepts]

/-- Witness for `C9_connkey_state_change_fires_both`: the `1.2.3.4:443`
connection whose state moved `01`/`ESTABLISHED` → `06`/`TIME_WAIT`. -/
theorem C9_connkey_state_change_fires_both_witness :
    connTo1234TimeWait.state ≠ connTo1234.state ∧
    (NetNotifyEvent.Opened connTo1234TimeWait ∈
      NetNotify.empty.tickEvents id [connTo1234] [connTo1234TimeWait]) ∧
    (NetNotifyEvent.Closed connTo1234 ∈
      NetNotify.empty.tickEvents id [connTo1234] [connTo1234TimeWait]) :=
  ⟨by decide,
    (C9_connkey_state_change_fires_both connTo1234 connTo1234TimeWait
      [connTo1234] [connTo1234TimeWait] (by decide) (by decide) (by decide)
      (by decide) (by decide) (by decide) (by decide) (by decide)).2.2.2.1,
    (C9_connkey_state_change_fires_both connTo1234 connTo1234TimeWait
      [connTo1234] [connTo1234TimeWait] (by decide) (by decide) (by decide)
      (by decide) (by decide) (by decide) (by decide) (by decide)).2.2.2.2⟩
